import Mathlib

/-!
Verification development for the geofront connection-lifecycle engine.

The Rust sources under `src/` are shallowly embedded: byte streams are lists
of naturals below 256, machine integers are naturals carrying the unsigned
bit pattern (with explicit `% 2 ^ 32` or `% 2 ^ 64` where the Rust semantics
truncates), fallible reads return `Except`, and the stateful registries are
explicit record-passing functions.  Each definition's doc comment names the
source function and lines it embeds.
-/

namespace Geofront

/-- Error kinds surfaced by the embedded readers, mirroring the
`std::io::ErrorKind` values the Rust source produces: `eof` for a failed
`read_u8` / `read_exact` / `read_u16` (UnexpectedEof) and `invalidData` for
framing errors (`ErrorKind::InvalidData`). -/
inductive RsErr where
  | eof
  | invalidData
deriving DecidableEq, Repr

/-- Byte stream: a TCP stream is modelled as the list of bytes it delivers. -/
abbrev ByteStream := List Nat

/-- Embeds `write_varint` from `protocol.rs` (lines 31-40), acting on the
unsigned 32-bit pattern of the `i32` argument.  The Rust loop tests
`(value & !0x7F) == 0`, pushes `((value & 0x7F) | 0x80)` and logically shifts
right by 7 (`((value as u32) >> 7)`); on the unsigned pattern these are
`value < 128`, `value % 128 + 128` and `value / 128`. -/
def write_varint (value : Nat) : List Nat :=
  if h : value < 128 then [value]
  else (value % 128 + 128) :: write_varint (value / 128)
termination_by value
decreasing_by
  exact Nat.div_lt_self (by omega) (by omega)

/-- Embeds the loop of `read_varint` (`protocol.rs` lines 9-28).  `numRead`
counts bytes already consumed and `acc` holds the `i32` accumulator as its
unsigned 32-bit pattern: `result |= ((byte & 0x7F) as i32) << (7 * num_read)`
is `acc ||| (((b &&& 127) <<< (7 * numRead)) % 2 ^ 32)`, the `% 2 ^ 32` being
the truncation performed by the 32-bit shift.  The count is then incremented
and checked against 5 (`VarInt too big` is `InvalidData`), and the loop ends
when the continuation bit `byte & 0x80` is clear.  An empty stream makes
`stream.read_u8()` fail with end-of-file. -/
def read_varint_aux : ByteStream → Nat → Nat → Except RsErr (Nat × ByteStream)
  | [], _, _ => .error .eof
  | b :: rest, numRead, acc =>
    let acc2 := acc ||| (((b &&& 127) <<< (7 * numRead)) % 2 ^ 32)
    if numRead + 1 > 5 then .error .invalidData
    else if b &&& 128 = 0 then .ok (acc2, rest)
    else read_varint_aux rest (numRead + 1) acc2

/-- Embeds `read_varint` (`protocol.rs` lines 9-28): the loop starts with
`num_read = 0` and `result = 0`. -/
def read_varint (s : ByteStream) : Except RsErr (Nat × ByteStream) :=
  read_varint_aux s 0 0

/-- Disjoint bitwise-or is addition: a value below `2 ^ k` occupies the low
bits and a multiple of `2 ^ k` the high bits. -/
theorem lor_mul_pow (k : Nat) : ∀ a b : Nat, a < 2 ^ k → a ||| b * 2 ^ k = a + b * 2 ^ k := by
  induction k with
  | zero =>
    intro a b h
    interval_cases a
    simp [Nat.zero_or]
  | succ k ih =>
    intro a b h
    have hd : Nat.bit a.bodd a.div2 = a := Nat.bit_decomp a
    have hb : b * 2 ^ (k + 1) = Nat.bit false (b * 2 ^ k) := by
      simp [Nat.bit_val]; ring
    have hdiv : a.div2 < 2 ^ k := by
      rw [Nat.div2_val]
      omega
    calc a ||| b * 2 ^ (k + 1)
        = Nat.bit a.bodd a.div2 ||| Nat.bit false (b * 2 ^ k) := by rw [hd, hb]
      _ = Nat.bit (a.bodd || false) (a.div2 ||| b * 2 ^ k) := Nat.lor_bit _ _ _ _
      _ = Nat.bit a.bodd (a.div2 + b * 2 ^ k) := by rw [Bool.or_false, ih _ _ hdiv]
      _ = a + b * 2 ^ (k + 1) := by
          rw [Nat.bit_val]
          have := Nat.bodd_add_div2 a
          ring_nf
          omega

/-- Masking with `0x7F` is reduction modulo 128. -/
theorem and_127_eq_mod (x : Nat) : x &&& 127 = x % 128 := by
  have h := Nat.and_pow_two_sub_one_eq_mod x 7
  norm_num at h
  exact h

/-- A byte below 128 has the continuation bit clear. -/
theorem and_128_of_lt (x : Nat) (h : x < 128) : x &&& 128 = 0 := by
  have ht : x.testBit 7 = false := Nat.testBit_lt_two_pow (by norm_num; omega)
  have h2 := Nat.and_two_pow x 7
  rw [ht] at h2
  norm_num at h2
  exact h2

/-- A byte in `[128, 256)` has the continuation bit set. -/
theorem and_128_of_ge (x : Nat) (h1 : 128 ≤ x) (h2 : x < 256) : x &&& 128 = 128 := by
  have ht : x.testBit 7 = true := by
    rw [Nat.testBit_to_div_mod]
    norm_num
    omega
  have h3 := Nat.and_two_pow x 7
  rw [ht] at h3
  norm_num at h3
  exact h3

/-- Round-trip invariant for the varint reader: consuming the minimal encoding
of a value `v` that fits in the remaining bit budget adds `v * 2 ^ (7 * k)` to
the accumulator and stops exactly at the end of the encoding. -/
theorem read_write_varint_aux :
    ∀ v k acc rest, v < 2 ^ (32 - 7 * k) → k ≤ 4 → acc < 2 ^ (7 * k) →
      read_varint_aux (write_varint v ++ rest) k acc = .ok (acc + v * 2 ^ (7 * k), rest) := by
  intro v
  induction v using Nat.strong_induction_on with
  | _ v ih =>
    intro k acc rest hv hk hacc
    have hpow : (32 - 7 * k) + 7 * k = 32 := by omega
    have hsplit : 2 ^ (32 - 7 * k) * 2 ^ (7 * k) = 2 ^ 32 := by
      rw [← pow_add, hpow]
    rw [write_varint]
    by_cases h : v < 128
    · simp only [dif_pos h, List.cons_append, List.nil_append, read_varint_aux]
      have h127 : v &&& 127 = v := by
        rw [and_127_eq_mod]; omega
      have hsh : v <<< (7 * k) = v * 2 ^ (7 * k) := Nat.shiftLeft_eq v (7 * k)
      have hlt : v * 2 ^ (7 * k) < 2 ^ 32 := by
        calc v * 2 ^ (7 * k) < 2 ^ (32 - 7 * k) * 2 ^ (7 * k) :=
              (Nat.mul_lt_mul_right (Nat.two_pow_pos _)).mpr hv
          _ = 2 ^ 32 := hsplit
      rw [h127, hsh, Nat.mod_eq_of_lt hlt, lor_mul_pow (7 * k) acc v hacc,
        if_neg (by omega), if_pos (and_128_of_lt v h)]
    · simp only [dif_neg h, List.cons_append, read_varint_aux]
      have hk3 : k ≤ 3 := by
        rcases Nat.lt_or_ge k 4 with h4 | h4
        · omega
        · have hk4 : k = 4 := by omega
          subst hk4
          norm_num at hv
          omega
      have h127 : (v % 128 + 128) &&& 127 = v % 128 := by
        rw [and_127_eq_mod]; omega
      have hsh : (v % 128) <<< (7 * k) = (v % 128) * 2 ^ (7 * k) :=
        Nat.shiftLeft_eq _ (7 * k)
      have hlt : (v % 128) * 2 ^ (7 * k) < 2 ^ 32 := by
        calc (v % 128) * 2 ^ (7 * k) < 2 ^ 7 * 2 ^ (7 * k) :=
              (Nat.mul_lt_mul_right (Nat.two_pow_pos _)).mpr (by omega)
          _ ≤ 2 ^ 7 * 2 ^ 21 := by
              have : 2 ^ (7 * k) ≤ 2 ^ 21 := Nat.pow_le_pow_right (by omega) (by omega)
              exact Nat.mul_le_mul_left _ this
          _ < 2 ^ 32 := by norm_num
      have hcont : (v % 128 + 128) &&& 128 = 128 :=
        and_128_of_ge _ (by omega) (by omega)
      rw [h127, hsh, Nat.mod_eq_of_lt hlt, lor_mul_pow (7 * k) acc (v % 128) hacc,
        if_neg (by omega), if_neg (by omega)]
      have hstep : 2 ^ (7 * (k + 1)) = 2 ^ (7 * k) * 128 := by
        have : 7 * (k + 1) = 7 * k + 7 := by ring
        rw [this, pow_add]
        norm_num
      have hdivlt : v / 128 < 2 ^ (32 - 7 * (k + 1)) := by
        rw [Nat.div_lt_iff_lt_mul (by norm_num : (0 : Nat) < 128)]
        have hexp : 2 ^ (32 - 7 * (k + 1)) * 128 = 2 ^ (32 - 7 * k) := by
          have h1 : (32 - 7 * (k + 1)) + 7 = 32 - 7 * k := by omega
          calc 2 ^ (32 - 7 * (k + 1)) * 128 = 2 ^ (32 - 7 * (k + 1)) * 2 ^ 7 := by norm_num
            _ = 2 ^ ((32 - 7 * (k + 1)) + 7) := by rw [pow_add]
            _ = 2 ^ (32 - 7 * k) := by rw [h1]
        rw [hexp]
        exact hv
      have hacc2 : acc + (v % 128) * 2 ^ (7 * k) < 2 ^ (7 * (k + 1)) := by
        rw [hstep]
        have hmb : (v % 128) * 2 ^ (7 * k) ≤ 127 * 2 ^ (7 * k) :=
          Nat.mul_le_mul_right _ (by omega)
        omega
      rw [ih (v / 128) (Nat.div_lt_self (by omega) (by omega)) (k + 1)
        (acc + (v % 128) * 2 ^ (7 * k)) rest hdivlt (by omega) hacc2]
      have hm := Nat.mod_add_div v 128
      have hfin : acc + (v % 128) * 2 ^ (7 * k) + v / 128 * 2 ^ (7 * (k + 1))
          = acc + v * 2 ^ (7 * k) := by
        rw [hstep]
        conv_rhs => rw [← hm]
        ring
      rw [hfin]

/-- C6: for every integer `v` with `0 ≤ v < 2 ^ 31`, reading a varint from the
byte sequence produced by writing `v` as a varint returns exactly `v`,
consuming exactly the written bytes (whatever follows them is left over). -/
theorem c6_varint_roundtrip (v : Nat) (hv : v < 2 ^ 31) (rest : ByteStream) :
    read_varint (write_varint v ++ rest) = .ok (v, rest) := by
  have h32 : v < 2 ^ (32 - 7 * 0) := by
    norm_num
    norm_num at hv
    omega
  have := read_write_varint_aux v 0 0 rest h32 (by omega) (by norm_num)
  simpa [read_varint] using this

/-- Witness for C6 at the concrete value 300. -/
theorem c6_varint_roundtrip_witness :
    300 < 2 ^ 31 ∧ read_varint (write_varint 300 ++ [7]) = .ok (300, [7]) :=
  ⟨by norm_num, c6_varint_roundtrip 300 (by norm_num) [7]⟩

/-- General round-trip for any unsigned 32-bit pattern (the varint writer emits
at most five groups for `v < 2 ^ 32` and the reader accepts five). -/
theorem read_varint_roundtrip32 (v : Nat) (hv : v < 2 ^ 32) (rest : ByteStream) :
    read_varint (write_varint v ++ rest) = .ok (v, rest) := by
  have h32 : v < 2 ^ (32 - 7 * 0) := by norm_num; omega
  have := read_write_varint_aux v 0 0 rest h32 (by omega) (by norm_num)
  simpa [read_varint] using this

/-- Continuation byte of a UTF-8 sequence: `0x80 ≤ b ≤ 0xBF`. -/
def isCont (b : Nat) : Bool := 128 ≤ b && b ≤ 191

/-- Validity of a byte sequence as UTF-8, following the table enforced by
Rust's `String::from_utf8` (RFC 3629: no overlong forms, no surrogates, no
code points above U+10FFFF). -/
def utf8Valid : List Nat → Bool
  | [] => true
  | b :: rest =>
    if b ≤ 127 then utf8Valid rest
    else if 194 ≤ b && b ≤ 223 then
      match rest with
      | c1 :: rs => isCont c1 && utf8Valid rs
      | [] => false
    else if b = 224 then
      match rest with
      | c1 :: c2 :: rs => (160 ≤ c1 && c1 ≤ 191) && isCont c2 && utf8Valid rs
      | _ => false
    else if 225 ≤ b && b ≤ 236 then
      match rest with
      | c1 :: c2 :: rs => isCont c1 && isCont c2 && utf8Valid rs
      | _ => false
    else if b = 237 then
      match rest with
      | c1 :: c2 :: rs => (128 ≤ c1 && c1 ≤ 159) && isCont c2 && utf8Valid rs
      | _ => false
    else if 238 ≤ b && b ≤ 239 then
      match rest with
      | c1 :: c2 :: rs => isCont c1 && isCont c2 && utf8Valid rs
      | _ => false
    else if b = 240 then
      match rest with
      | c1 :: c2 :: c3 :: rs =>
        (144 ≤ c1 && c1 ≤ 191) && isCont c2 && isCont c3 && utf8Valid rs
      | _ => false
    else if 241 ≤ b && b ≤ 243 then
      match rest with
      | c1 :: c2 :: c3 :: rs => isCont c1 && isCont c2 && isCont c3 && utf8Valid rs
      | _ => false
    else if b = 244 then
      match rest with
      | c1 :: c2 :: c3 :: rs =>
        (128 ≤ c1 && c1 ≤ 143) && isCont c2 && isCont c3 && utf8Valid rs
      | _ => false
    else false

/-- Embeds `read_string` (`protocol.rs` lines 43-59): read a varint length,
reject lengths above 262144 with `InvalidData`, read exactly that many bytes
(failing with end-of-file if the stream is short), and validate them as UTF-8
(`String::from_utf8` failure is mapped to `InvalidData`).  A Rust `String` is
byte-identical to its validated buffer, so the result is the byte list.  The
length is `read_varint(..)? as usize`; for bit patterns at or above `2 ^ 31`
the Rust cast sign-extends to a huge `usize`, which like the pattern itself
exceeds 262144, so comparing the unsigned pattern against 262144 agrees with
the source on every input. -/
def read_string (s : ByteStream) : Except RsErr (List Nat × ByteStream) :=
  match read_varint s with
  | .error e => .error e
  | .ok (len, rest) =>
    if len > 262144 then .error .invalidData
    else if rest.length < len then .error .eof
    else
      let buf := rest.take len
      if utf8Valid buf then .ok (buf, rest.drop len)
      else .error .invalidData

/-- Embeds `write_string` (`protocol.rs` lines 62-66): varint byte length
followed by the bytes. -/
def write_string (s : List Nat) : List Nat := write_varint s.length ++ s

/-- Reading a string succeeds on a within-limit, valid-UTF-8 buffer that is
fully available, returning the buffer and the leftover stream. -/
theorem read_string_ok (bs rest : ByteStream) (hlen : bs.length ≤ 262144)
    (hval : utf8Valid bs = true) :
    read_string (write_varint bs.length ++ (bs ++ rest)) = .ok (bs, rest) := by
  unfold read_string
  rw [read_varint_roundtrip32 bs.length (by omega) (bs ++ rest)]
  simp only [List.length_append]
  rw [if_neg (by omega), if_neg (by omega)]
  simp only [List.take_left, List.drop_left, hval, if_pos]

/-- Reading a string fails with a framing error on a within-limit buffer that
is not valid UTF-8. -/
theorem read_string_invalid (bs rest : ByteStream) (hlen : bs.length ≤ 262144)
    (hval : utf8Valid bs = false) :
    read_string (write_varint bs.length ++ (bs ++ rest)) = .error .invalidData := by
  unfold read_string
  rw [read_varint_roundtrip32 bs.length (by omega) (bs ++ rest)]
  simp only [List.length_append]
  rw [if_neg (by omega), if_neg (by omega)]
  simp only [List.take_left, hval]
  simp

/-- Reading a string fails with a framing error whenever the declared length
exceeds 262144, before any content is consumed. -/
theorem read_string_too_long (len : Nat) (bs : ByteStream) (h1 : 262144 < len)
    (h2 : len < 2 ^ 32) :
    read_string (write_varint len ++ bs) = .error .invalidData := by
  unfold read_string
  rw [read_varint_roundtrip32 len h2 bs]
  simp [h1]

/-- C7: `read_string` fails with a framing (`InvalidData`) error whenever the
declared varint length exceeds 262144 (in particular declared length 262145)
or the bytes are not valid UTF-8; for every declared length at most 262144
whose bytes are valid UTF-8 and fully available it returns the decoded
string, which in Rust is byte-identical to the buffer. -/
theorem c7_read_string_spec :
    (∀ (len : Nat) (bs : ByteStream), 262144 < len → len < 2 ^ 32 →
        read_string (write_varint len ++ bs) = .error .invalidData) ∧
    (∀ (bs rest : ByteStream), bs.length ≤ 262144 → utf8Valid bs = false →
        read_string (write_varint bs.length ++ (bs ++ rest)) = .error .invalidData) ∧
    (∀ (bs rest : ByteStream), bs.length ≤ 262144 → utf8Valid bs = true →
        read_string (write_varint bs.length ++ (bs ++ rest)) = .ok (bs, rest)) :=
  ⟨read_string_too_long, read_string_invalid, read_string_ok⟩

/-- Witness for C7: declared length 262145 is rejected; the lone byte `0xC3`
is invalid UTF-8 and rejected; the two ASCII bytes `"ok"` are accepted. -/
theorem c7_read_string_spec_witness :
    read_string (write_varint 262145 ++ []) = .error .invalidData ∧
    read_string (write_varint 1 ++ ([195] ++ [])) = .error .invalidData ∧
    read_string (write_varint 2 ++ ([111, 107] ++ [9])) = .ok ([111, 107], [9]) :=
  ⟨c7_read_string_spec.1 262145 [] (by norm_num) (by norm_num),
   c7_read_string_spec.2.1 [195] [] (by norm_num) (by decide),
   c7_read_string_spec.2.2 [111, 107] [9] (by norm_num) (by decide)⟩

/-- Length bound for the varint writer: values below `128 ^ (k + 1)` need at
most `k + 1` groups. -/
theorem write_varint_length_aux : ∀ k v, v < 128 ^ (k + 1) → (write_varint v).length ≤ k + 1 := by
  intro k
  induction k with
  | zero =>
    intro v hv
    rw [write_varint]
    have hlt : v < 128 := by norm_num at hv; omega
    simp [hlt]
  | succ k ih =>
    intro v hv
    rw [write_varint]
    by_cases h : v < 128
    · simp [h]
    · simp only [dif_neg h, List.length_cons]
      have hdiv : v / 128 < 128 ^ (k + 1) := by
        rw [Nat.div_lt_iff_lt_mul (by norm_num : (0 : Nat) < 128)]
        calc v < 128 ^ (k + 2) := hv
          _ = 128 ^ (k + 1) * 128 := by ring
      have := ih (v / 128) hdiv
      omega

/-- Any 32-bit pattern encodes in at most five varint bytes. -/
theorem write_varint_length_le_five (v : Nat) (hv : v < 2 ^ 32) :
    (write_varint v).length ≤ 5 :=
  write_varint_length_aux 4 v (by norm_num at hv ⊢; omega)

/-- Effect of `write_disconnect` on its stream: the bytes written and whether
the outbound direction was shut down afterwards. -/
structure DisconnectEffect where
  packet : List Nat
  halfClosed : Bool
deriving DecidableEq, Repr

/-- Embeds `write_disconnect` (`protocol.rs` lines 69-87): the payload is the
packet id varint 0 followed by the message written as a plain length-prefixed
string (`write_string(&mut payload, msg)`), the packet prepends the payload
length varint, and after `write_all` the stream is `shutdown`, half-closing
the outbound direction. -/
def write_disconnect (msg : List Nat) : DisconnectEffect :=
  let payload := write_varint 0 ++ write_string msg
  let packet := write_varint payload.length ++ payload
  { packet := packet, halfClosed := true }

/-- Decodes a Login-state frame with the embedded readers: strip the length
prefix, read the packet id varint, then read the string payload.  Used to
state what `write_disconnect` put on the wire. -/
def decode_login_disconnect (pkt : List Nat) : Except RsErr (Nat × List Nat × List Nat) :=
  match read_varint pkt with
  | .error e => .error e
  | .ok (_len, r1) =>
    match read_varint r1 with
    | .error e => .error e
    | .ok (pid, r2) =>
      match read_string r2 with
      | .error e => .error e
      | .ok (s, r3) => .ok (pid, s, r3)

/-- Bytes of an ASCII string; for ASCII text the UTF-8 encoding coincides with
the list of code points. -/
def asciiBytes (s : String) : List Nat := s.data.map Char.toNat

/-- Counterexample for C2: for the route decision message `Banned.` the
disconnect frame's string payload is the raw bytes of `Banned.`, which differ
from the JSON chat component the claim prescribes. -/
theorem c2_disconnect_payload_counterexample :
    decode_login_disconnect (write_disconnect (asciiBytes "Banned.")).packet
      = .ok (0, asciiBytes "Banned.", []) ∧
    asciiBytes "Banned." ≠ asciiBytes "\x7b\"text\":\"Banned.\"\x7d" := by
  have hb : asciiBytes "Banned." = [66, 97, 110, 110, 101, 100, 46] := by decide
  have hpkt : (write_disconnect [66, 97, 110, 110, 101, 100, 46]).packet
      = [9, 0, 7, 66, 97, 110, 110, 101, 100, 46] := by
    simp +decide [write_disconnect, write_string, write_varint]
  constructor
  · rw [hb, hpkt]
    rfl
  · decide

/-- C2 as amended: for every valid-UTF-8 message of at most 262144 bytes,
`write_disconnect` emits a packet with id 0 whose string payload is the
message itself — not a JSON `text` wrapper — and then half-closes the
outbound direction of the client stream. -/
theorem c2_disconnect_frame_amended (msg : List Nat) (hlen : msg.length ≤ 262144)
    (hval : utf8Valid msg = true) :
    decode_login_disconnect (write_disconnect msg).packet = .ok (0, msg, []) ∧
    (write_disconnect msg).halfClosed = true := by
  refine ⟨?_, rfl⟩
  show decode_login_disconnect
      (write_varint (write_varint 0 ++ write_string msg).length
        ++ (write_varint 0 ++ write_string msg)) = .ok (0, msg, [])
  have hw0 : write_varint 0 = [0] := by simp [write_varint]
  have hlen5 : (write_varint msg.length).length ≤ 5 :=
    write_varint_length_le_five msg.length (by omega)
  have hplen : (write_varint 0 ++ write_string msg).length < 2 ^ 32 := by
    simp only [List.length_append, hw0, write_string]
    norm_num
    omega
  have hs := read_string_ok msg [] hlen hval
  rw [List.append_nil] at hs
  have hv0 := read_varint_roundtrip32 0 (by norm_num : (0 : Nat) < 2 ^ 32)
    (write_varint msg.length ++ msg)
  unfold decode_login_disconnect
  rw [read_varint_roundtrip32 _ hplen]
  simp only [write_string, hv0, hs]

/-- Witness for the amended C2 at the message `Banned.`. -/
theorem c2_disconnect_frame_amended_witness :
    decode_login_disconnect (write_disconnect (asciiBytes "Banned.")).packet
      = .ok (0, asciiBytes "Banned.", []) ∧
    (write_disconnect (asciiBytes "Banned.")).halfClosed = true :=
  c2_disconnect_frame_amended (asciiBytes "Banned.") (by decide) (by decide)

/-- Embeds the private `write_varint` of `connection.rs` (lines 527-541).  Its
loop pushes `value & 0x7f`, arithmetic-shifts `value >>= 7`, sets the
continuation bit when the shifted value is nonzero, and stops on zero.  On a
nonnegative `i32` (pattern below `2 ^ 31`) the arithmetic shift is division by
128; on a negative `i32` the Rust loop never terminates, so the embedding is
only ever applied below `2 ^ 31`. -/
def write_varint_conn (value : Nat) : List Nat :=
  if h : value / 128 = 0 then [value % 128]
  else (value % 128 + 128) :: write_varint_conn (value / 128)
termination_by value
decreasing_by
  exact Nat.div_lt_self (by omega) (by omega)

/-- Embeds `write_string` of `connection.rs` (lines 543-548): varint byte
length followed by the bytes. -/
def write_string_conn (s : List Nat) : List Nat := write_varint_conn s.length ++ s

/-- The two varint writers in the source (`protocol.rs` and `connection.rs`)
emit identical bytes on every nonnegative value. -/
theorem write_varint_conn_eq : ∀ v : Nat, write_varint_conn v = write_varint v := by
  intro v
  induction v using Nat.strong_induction_on with
  | _ v ih =>
    rw [write_varint_conn, write_varint]
    by_cases h : v < 128
    · have h0 : v / 128 = 0 := by omega
      simp [h0, h, Nat.mod_eq_of_lt h]
    · have h0 : ¬ v / 128 = 0 := by omega
      simp [h0, h]
      exact ih (v / 128) (Nat.div_lt_self (by omega) (by omega))

/-- Embeds `HandshakeData` (`types.rs` lines 240-246): protocol version and
next-state carry the unsigned 32-bit pattern of the parsed `i32`, the host is
its UTF-8 byte string, the port the 16-bit value. -/
structure HandshakeData where
  protocol_version : Nat
  host : List Nat
  port : Nat
  next_state : Nat
deriving DecidableEq, Repr

/-- Big-endian bytes of a `u16` (`hs.port.to_be_bytes()`). -/
def portBeBytes (p : Nat) : List Nat := [p / 256 % 256, p % 256]

/-- Embeds `create_handshake_packet` (`connection.rs` lines 550-561): packet
id 0, protocol version varint, host string, big-endian port, next-state
varint, with the payload length varint prepended. -/
def create_handshake_packet (hs : HandshakeData) : List Nat :=
  let data := write_varint_conn 0 ++ write_varint_conn hs.protocol_version
    ++ write_string_conn hs.host ++ portBeBytes hs.port ++ write_varint_conn hs.next_state
  write_varint_conn data.length ++ data

/-- Embeds `create_login_start_packet` (`connection.rs` lines 563-571). -/
def create_login_start_packet (username : List Nat) : List Nat :=
  let data := write_varint_conn 0 ++ write_string_conn username
  write_varint_conn data.length ++ data

/-- Embeds the host-rewrite step of `handle_conn` (`connection.rs` lines
219-223): the parsed handshake is cloned (`hs.clone()`) and, when the route
decision carries `rewriteHost`, only the clone's host field is replaced; the
original record is untouched. -/
def apply_rewrite (hs : HandshakeData) (rewriteHost : Option (List Nat)) : HandshakeData :=
  match rewriteHost with
  | none => hs
  | some h => { hs with host := h }

/-- Embeds `read_u16` (tokio `AsyncReadExt::read_u16`): two big-endian bytes. -/
def read_u16 (s : ByteStream) : Except RsErr (Nat × ByteStream) :=
  match s with
  | b1 :: b2 :: rest => .ok (b1 * 256 + b2, rest)
  | _ => .error .eof

/-- Embeds `parse_handshake` (`protocol.rs` lines 89-111): packet length
varint (ignored), packet id varint which must be 0, protocol version varint,
host string, big-endian port, next-state varint. -/
def parse_handshake (s : ByteStream) : Except RsErr (HandshakeData × ByteStream) :=
  match read_varint s with
  | .error e => .error e
  | .ok (_packet_len, r1) =>
    match read_varint r1 with
    | .error e => .error e
    | .ok (packet_id, r2) =>
      if packet_id ≠ 0 then .error .invalidData
      else
        match read_varint r2 with
        | .error e => .error e
        | .ok (pv, r3) =>
          match read_string r3 with
          | .error e => .error e
          | .ok (host, r4) =>
            match read_u16 r4 with
            | .error e => .error e
            | .ok (port, r5) =>
              match read_varint r5 with
              | .error e => .error e
              | .ok (ns, r6) =>
                .ok ({ protocol_version := pv, host := host, port := port,
                       next_state := ns }, r6)

/-- Decoding a `u16` written big-endian recovers the value. -/
theorem read_u16_portBeBytes (p : Nat) (hp : p < 2 ^ 16) (rest : ByteStream) :
    read_u16 (portBeBytes p ++ rest) = .ok (p, rest) := by
  simp only [portBeBytes, List.cons_append, List.nil_append, read_u16]
  have hv : p / 256 % 256 * 256 + p % 256 = p := by omega
  rw [hv]

/-- Round trip between `create_handshake_packet` and `parse_handshake`: the
re-serialized handshake decodes to exactly the same field values, consuming
the whole packet. -/
theorem parse_create_handshake (pv : Nat) (host : List Nat) (port ns : Nat)
    (hpv : pv < 2 ^ 31) (hns : ns < 2 ^ 31) (hport : port < 2 ^ 16)
    (hhl : host.length ≤ 262144) (hhv : utf8Valid host = true) :
    parse_handshake (create_handshake_packet ⟨pv, host, port, ns⟩)
      = .ok (⟨pv, host, port, ns⟩, []) := by
  have hpv32 : pv < 2 ^ 32 := lt_trans hpv (by norm_num)
  have hns32 : ns < 2 ^ 32 := lt_trans hns (by norm_num)
  have l0 : (write_varint 0).length ≤ 5 := write_varint_length_le_five 0 (by norm_num)
  have lp : (write_varint pv).length ≤ 5 := write_varint_length_le_five pv hpv32
  have ll : (write_varint host.length).length ≤ 5 :=
    write_varint_length_le_five host.length (by omega)
  have ln : (write_varint ns).length ≤ 5 := write_varint_length_le_five ns hns32
  have hL : (write_varint 0 ++ (write_varint pv ++ (write_varint host.length
      ++ (host ++ (portBeBytes port ++ write_varint ns))))).length < 2 ^ 32 := by
    simp only [List.length_append, portBeBytes, List.length_cons, List.length_nil]
    norm_num
    omega
  have e1 := read_varint_roundtrip32 _ hL
  have e2 := read_varint_roundtrip32 0 (by norm_num : (0 : Nat) < 2 ^ 32)
    (write_varint pv ++ (write_varint host.length
      ++ (host ++ (portBeBytes port ++ write_varint ns))))
  have e3 := read_varint_roundtrip32 pv hpv32
    (write_varint host.length ++ (host ++ (portBeBytes port ++ write_varint ns)))
  have e4 : read_string (write_varint host.length
      ++ (host ++ (portBeBytes port ++ write_varint ns)))
      = .ok (host, portBeBytes port ++ write_varint ns) :=
    read_string_ok host _ hhl hhv
  have e5 := read_u16_portBeBytes port hport (write_varint ns)
  have e6 : read_varint (write_varint ns) = .ok (ns, []) := by
    have := read_varint_roundtrip32 ns hns32 []
    simpa using this
  simp only [create_handshake_packet, write_string_conn, write_varint_conn_eq,
    List.append_assoc, parse_handshake, e1, e2, e3, e4, e5, e6, ne_eq,
    not_true_eq_false, if_false]

/-- C8: for a route decision carrying `rewriteHost`, the rewrite is applied to
a clone whose non-host fields are those of the original handshake; the packet
replayed to the backend is the length-prefixed concatenation of the original
packet-id, protocol-version, port and next-state encodings around the new
host's string encoding, and parsing that packet back yields the original
protocol version, port and next-state with only the host replaced.  The
original record `hs` is untouched (the embedding builds a new record). -/
theorem c8_rewrite_host_only (hs : HandshakeData) (newHost : List Nat)
    (hpv : hs.protocol_version < 2 ^ 31) (hns : hs.next_state < 2 ^ 31)
    (hport : hs.port < 2 ^ 16) (hhl : newHost.length ≤ 262144)
    (hhv : utf8Valid newHost = true) :
    (apply_rewrite hs (some newHost)).protocol_version = hs.protocol_version ∧
    (apply_rewrite hs (some newHost)).port = hs.port ∧
    (apply_rewrite hs (some newHost)).next_state = hs.next_state ∧
    (apply_rewrite hs (some newHost)).host = newHost ∧
    apply_rewrite hs none = hs ∧
    create_handshake_packet (apply_rewrite hs (some newHost))
      = write_varint_conn (write_varint_conn 0 ++ write_varint_conn hs.protocol_version
          ++ write_string_conn newHost ++ portBeBytes hs.port
          ++ write_varint_conn hs.next_state).length
        ++ (write_varint_conn 0 ++ write_varint_conn hs.protocol_version
          ++ write_string_conn newHost ++ portBeBytes hs.port
          ++ write_varint_conn hs.next_state) ∧
    parse_handshake (create_handshake_packet (apply_rewrite hs (some newHost)))
      = .ok (apply_rewrite hs (some newHost), []) := by
  refine ⟨rfl, rfl, rfl, rfl, rfl, rfl, ?_⟩
  have := parse_create_handshake hs.protocol_version newHost hs.port hs.next_state
    hpv hns hport hhl hhv
  exact this

/-- Witness for C8 at a concrete handshake and rewrite target. -/
theorem c8_rewrite_host_only_witness :
    (apply_rewrite ⟨765, [97], 25565, 2⟩ (some [98, 99])).protocol_version = 765 ∧
    (apply_rewrite ⟨765, [97], 25565, 2⟩ (some [98, 99])).port = 25565 ∧
    (apply_rewrite ⟨765, [97], 25565, 2⟩ (some [98, 99])).next_state = 2 ∧
    (apply_rewrite ⟨765, [97], 25565, 2⟩ (some [98, 99])).host = [98, 99] ∧
    apply_rewrite ⟨765, [97], 25565, 2⟩ none = ⟨765, [97], 25565, 2⟩ ∧
    create_handshake_packet (apply_rewrite ⟨765, [97], 25565, 2⟩ (some [98, 99]))
      = write_varint_conn (write_varint_conn 0 ++ write_varint_conn 765
          ++ write_string_conn [98, 99] ++ portBeBytes 25565
          ++ write_varint_conn 2).length
        ++ (write_varint_conn 0 ++ write_varint_conn 765
          ++ write_string_conn [98, 99] ++ portBeBytes 25565
          ++ write_varint_conn 2) ∧
    parse_handshake (create_handshake_packet (apply_rewrite ⟨765, [97], 25565, 2⟩
        (some [98, 99])))
      = .ok (apply_rewrite ⟨765, [97], 25565, 2⟩ (some [98, 99]), []) :=
  c8_rewrite_host_only ⟨765, [97], 25565, 2⟩ [98, 99] (by norm_num) (by norm_num)
    (by norm_num) (by norm_num) (by decide)

/-- Embeds `CacheGranularity` (`types.rs` lines 120-127). -/
inductive CacheGranularity where
  | ip
  | ipHost
deriving DecidableEq, Repr

/-- Embeds `CacheConfig` (`types.rs` lines 111-118): granularity, TTL in
milliseconds, optional reject flag and reason. -/
structure CacheConfig where
  granularity : CacheGranularity
  ttl : Nat
  reject : Option Bool
  rejectReason : Option String
deriving DecidableEq, Repr

/-- Embeds `CacheEntry` (`cache.rs` lines 9-15).  The `serde_json::Value`
payload is a type parameter; `expires_at` is a monotonic instant modelled as a
natural number of milliseconds. -/
structure CacheEntry (α : Type) where
  data : α
  is_rejection : Bool
  reject_reason : Option String
  expires_at : Nat
deriving DecidableEq, Repr

/-- The sharded `DashMap<String, CacheEntry>` is modelled as an association
list with at most one binding per key. -/
abbrev Cache (α : Type) := List (String × CacheEntry α)

/-- Map lookup on the association list. -/
def cacheFind {α : Type} (c : Cache α) (k : String) : Option (CacheEntry α) :=
  (c.find? (fun p => p.1 == k)).map (fun p => p.2)

/-- Map removal on the association list. -/
def cacheRemove {α : Type} (c : Cache α) (k : String) : Cache α :=
  c.filter (fun p => p.1 != k)

/-- Map insertion (`DashMap::insert` replaces any existing binding). -/
def cacheInsert {α : Type} (c : Cache α) (k : String) (v : CacheEntry α) : Cache α :=
  (k, v) :: cacheRemove c k

/-- Embeds `RouterMotdCache::generate_key` (`cache.rs` lines 30-35):
`"ip:{ip}"` for IP granularity and `"ip:{ip}:host:{host}"` for IP+Host
granularity, with an absent host replaced by `host.unwrap_or("default")`. -/
def generate_key (ip : String) (host : Option String) (g : CacheGranularity) : String :=
  match g with
  | .ip => "ip:" ++ ip
  | .ipHost => "ip:" ++ ip ++ ":host:" ++ host.getD "default"

/-- Embeds `RouterMotdCache::get` (`cache.rs` lines 38-60) at a single time
point `now`: a hit whose expiry is strictly in the future is returned as a
clone; an expired hit is removed (after dropping the shard read reference)
and the call returns none.  The returned pair is (result, updated map). -/
def cache_get {α : Type} (c : Cache α) (ip : String) (host : Option String)
    (g : CacheGranularity) (now : Nat) : Option (CacheEntry α) × Cache α :=
  let key := generate_key ip host g
  match cacheFind c key with
  | some entry =>
    if now < entry.expires_at then (some entry, c)
    else (none, cacheRemove c key)
  | none => (none, c)

/-- Embeds `RouterMotdCache::set` (`cache.rs` lines 63-75): insert under the
directive's granularity with `expires_at = now + ttl`, copying the reject
flag (`unwrap_or(false)`) and reason. -/
def cache_set {α : Type} (c : Cache α) (ip : String) (host : Option String)
    (data : α) (cfg : CacheConfig) (now : Nat) : Cache α :=
  let key := generate_key ip host cfg.granularity
  cacheInsert c key
    { data := data, is_rejection := cfg.reject.getD false,
      reject_reason := cfg.rejectReason, expires_at := now + cfg.ttl }

/-- Embeds `RouterMotdCache::clear` (`cache.rs` lines 84-87). -/
def cache_clear {α : Type} (c : Cache α) (ip : String) (host : Option String)
    (g : CacheGranularity) : Cache α :=
  cacheRemove c (generate_key ip host g)

/-- Embeds `RouterMotdCache::cleanup_expired` (`cache.rs` lines 78-81): retain
entries whose expiry is strictly in the future. -/
def cache_cleanup_expired {α : Type} (c : Cache α) (now : Nat) : Cache α :=
  c.filter (fun p => decide (now < p.2.expires_at))

/-- C10: for the IP+Host granularity an absent host is keyed with the literal
`default`: the generated key is `ip:{ip}:host:default`, identical to the key
for `host = some "default"`, and `get`, `set` and `clear` therefore address
the same entry for both arguments. -/
theorem c10_absent_host_is_default :
    (∀ ip : String,
      generate_key ip none .ipHost = "ip:" ++ ip ++ ":host:default" ∧
      generate_key ip (some "default") .ipHost = "ip:" ++ ip ++ ":host:default") ∧
    (∀ (α : Type) (c : Cache α) (ip : String) (now : Nat),
      cache_get c ip none .ipHost now = cache_get c ip (some "default") .ipHost now) ∧
    (∀ (α : Type) (c : Cache α) (ip : String) (d : α) (cfg : CacheConfig) (now : Nat),
      cfg.granularity = .ipHost →
      cache_set c ip none d cfg now = cache_set c ip (some "default") d cfg now) ∧
    (∀ (α : Type) (c : Cache α) (ip : String),
      cache_clear c ip none .ipHost = cache_clear c ip (some "default") .ipHost) := by
  refine ⟨?_, ?_, ?_, ?_⟩
  · intro ip
    have hlit : (":host:" ++ "default" : String) = ":host:default" := rfl
    constructor
    · show "ip:" ++ ip ++ ":host:" ++ "default" = "ip:" ++ ip ++ ":host:default"
      rw [String.append_assoc ("ip:" ++ ip) ":host:" "default", hlit]
    · show "ip:" ++ ip ++ ":host:" ++ "default" = "ip:" ++ ip ++ ":host:default"
      rw [String.append_assoc ("ip:" ++ ip) ":host:" "default", hlit]
  · intro α c ip now
    rfl
  · intro α c ip d cfg now _h
    rfl
  · intro α c ip
    rfl

/-- Witness for C10 at a concrete cache, entry and configuration. -/
theorem c10_absent_host_is_default_witness :
    cache_set ([] : Cache Nat) "1.2.3.4" none 7
        ⟨.ipHost, 60000, none, none⟩ 0
      = cache_set ([] : Cache Nat) "1.2.3.4" (some "default") 7
        ⟨.ipHost, 60000, none, none⟩ 0 :=
  c10_absent_host_is_default.2.2.1 Nat [] "1.2.3.4" 7 ⟨.ipHost, 60000, none, none⟩ 0 rfl

/-- Global registry tables (`state.rs`): listener table, connection table
(`CONN_MANAGER`), per-connection metrics table (`CONN_METRICS`), rate-limiter
table (`RATE_LIMITERS`), and the `ACTIVE_CONN` counter (a `u64`, so updates
wrap modulo `2 ^ 64`).  The tables carry only the key sets, which is all the
membership invariant concerns. -/
structure Registry where
  listeners : List Nat
  connections : List Nat
  metrics : List Nat
  limiters : List Nat
  activeConn : Nat
deriving DecidableEq, Repr

/-- Removal of an id from a table. -/
def removeId (l : List Nat) (id : Nat) : List Nat :=
  l.filter (fun x => x != id)

/-- Decrement of the `u64` counter `ACTIVE_CONN` (`fetch_sub(1)`), wrapping
modulo `2 ^ 64`. -/
def decActive (n : Nat) : Nat := (n + 2 ^ 64 - 1) % 2 ^ 64

/-- Embeds `cleanup_conn` (`connection.rs` lines 343-348): remove the id from
the connection table, the limiter table and the metrics table, and decrement
`ACTIVE_CONN`. -/
def cleanup_conn (s : Registry) (id : Nat) : Registry :=
  { s with connections := removeId s.connections id,
           limiters := removeId s.limiters id,
           metrics := removeId s.metrics id,
           activeConn := decActive s.activeConn }

/-- Embeds `proxy_disconnect` (`ffi.rs` lines 263-278): when the id is in the
connection table, abort the task and remove it from all three tables and
decrement `ACTIVE_CONN`, returning OK; otherwise return not-found. -/
def proxy_disconnect (s : Registry) (id : Nat) : Int × Registry :=
  if id ∈ s.connections then
    (0, { s with connections := removeId s.connections id,
                 limiters := removeId s.limiters id,
                 metrics := removeId s.metrics id,
                 activeConn := decActive s.activeConn })
  else (-3, s)

/-- Embeds `proxy_kick_all` (`ffi.rs` lines 343-363): drain the connection
table, removing each drained id from the limiter and metrics tables and
decrementing `ACTIVE_CONN` once per id; the return value is the number of
drained connections. -/
def proxy_kick_all (s : Registry) : Nat × Registry :=
  (s.connections.length,
   { s with connections := [],
            limiters := s.limiters.filter (fun x => x ∉ s.connections),
            metrics := s.metrics.filter (fun x => x ∉ s.connections),
            activeConn :=
              (s.activeConn + (2 ^ 64 - 1) * s.connections.length) % 2 ^ 64 })

/-- Embeds `proxy_shutdown` (`ffi.rs` lines 319-340): abort and drain the
listener table, abort and drain the connection table, and clear the metrics
table.  The source does not touch `RATE_LIMITERS` or `ACTIVE_CONN`. -/
def proxy_shutdown (s : Registry) : Int × Registry :=
  (0, { s with listeners := [], connections := [], metrics := [] })

/-- Invariant I1 of the specification: every connection id is in all three of
the connection, metrics and limiter tables, or in none of them. -/
def I1 (s : Registry) : Prop :=
  ∀ id : Nat, (id ∈ s.connections ↔ id ∈ s.metrics) ∧
    (id ∈ s.connections ↔ id ∈ s.limiters)

/-- C4 evaluated at the failing input: a registry holding one connection
(id 1, present in all three tables) satisfies I1, but `proxy_shutdown` leaves
the rate-limiter table still holding id 1 while emptying the other tables, so
I1 is violated and the registries are not all empty afterwards. -/
theorem c4_shutdown_leaves_limiter_entry :
    I1 ⟨[5], [1], [1], [1], 1⟩ ∧
    proxy_shutdown ⟨[5], [1], [1], [1], 1⟩ = (0, ⟨[], [], [], [1], 1⟩) ∧
    (proxy_shutdown ⟨[5], [1], [1], [1], 1⟩).2.limiters ≠ [] ∧
    ¬ I1 (proxy_shutdown ⟨[5], [1], [1], [1], 1⟩).2 := by
  refine ⟨?_, rfl, by decide, ?_⟩
  · intro id
    exact ⟨Iff.rfl, Iff.rfl⟩
  · intro h
    have h2 := (h 1).2
    simp [proxy_shutdown] at h2

/-- Embeds `RouteDecision` (`types.rs` lines 96-109); all fields optional. -/
structure RouteDecision where
  remote_host : Option String
  remote_port : Option Nat
  proxy : Option String
  proxy_protocol : Option Nat
  disconnect : Option String
  rewrite_host : Option String
  cache : Option CacheConfig
deriving DecidableEq, Repr

/-- Embeds `RouteDecision::default()`: every field `None`. -/
def RouteDecision.defaultVal : RouteDecision :=
  ⟨none, none, none, none, none, none, none⟩

/-- Embeds `MotdVersion` (`types.rs` lines 259-263). -/
structure MotdVersion where
  name : String
  protocol : Nat
deriving DecidableEq, Repr

/-- Embeds `MotdPlayerSample` (`types.rs` lines 274-279). -/
inductive MotdPlayerSample where
  | full (name : String) (id : String)
  | name (s : String)
deriving DecidableEq, Repr

/-- Embeds `MotdPlayers` (`types.rs` lines 265-272); `online` defaults to
`None` when absent. -/
structure MotdPlayers where
  max : Nat
  online : Option Nat
  sample : List MotdPlayerSample
deriving DecidableEq, Repr

/-- Free-form `serde_json::Value` payloads (MOTD descriptions) are modelled by
their canonical JSON serialization text. -/
abbrev JsonValue := String

/-- Embeds `MotdDecision` (`types.rs` lines 249-257). -/
structure MotdDecision where
  version : Option MotdVersion
  players : Option MotdPlayers
  description : Option JsonValue
  favicon : Option String
  disconnect : Option String
  cache : Option CacheConfig
deriving DecidableEq, Repr

/-- Outcome of `serde_json::from_str` on the submitted decision pointer: the
pointer may be null, parse to a decision, or fail to parse. -/
inductive SubmitJson (δ : Type) where
  | null
  | valid (d : δ)
  | malformed
deriving DecidableEq

/-- Pending one-shot slot tables (`PENDING_ROUTES` / `PENDING_MOTDS`,
`state.rs` lines 33-37): each pending connection id is mapped to whether the
engine still holds the receiving end of its one-shot channel. -/
abbrev Pending := List (Nat × Bool)

/-- Slot lookup. -/
def pendingLookup (p : Pending) (id : Nat) : Option Bool :=
  (p.find? (fun q => q.1 == id)).map (fun q => q.2)

/-- Slot removal (`HashMap::remove`). -/
def pendingRemove (p : Pending) (id : Nat) : Pending :=
  p.filter (fun q => q.1 != id)

/-- Slot insertion (`HashMap::insert`); a freshly created one-shot receiver is
held by the engine, so the slot is alive. -/
def pendingInsert (p : Pending) (id : Nat) : Pending :=
  (id, true) :: pendingRemove p id

/-- Shared sending phase of `proxy_submit_routing_decision` (`ffi.rs` lines
120-136): remove the slot for the id; if present, send the decision over the
one-shot (which fails with an internal error only if the receiver was
dropped), else report not-found.  The last component is the decision the
engine's awaiting task receives. -/
def submit_send (p : Pending) (connId : Nat) (decision : RouteDecision) :
    Int × Pending × Option RouteDecision :=
  match pendingLookup p connId with
  | some alive =>
    if alive then (0, pendingRemove p connId, some decision)
    else (-1, pendingRemove p connId, none)
  | none => (-3, p, none)

/-- Embeds `proxy_submit_routing_decision` (`ffi.rs` lines 97-137): a null
pointer is bad-param (-2); otherwise the JSON is parsed and a parse failure is
replaced by `RouteDecision { disconnect: Some("Invalid JSON from router"),
..Default::default() }`; the decision is then sent to the pending slot. -/
def proxy_submit_routing_decision (p : Pending) (connId : Nat)
    (json : SubmitJson RouteDecision) : Int × Pending × Option RouteDecision :=
  match json with
  | .null => (-2, p, none)
  | .valid d => submit_send p connId d
  | .malformed => submit_send p connId
      { RouteDecision.defaultVal with disconnect := some "Invalid JSON from router" }

/-- C9: submitting a non-null JSON string that fails to parse while a live
pending route slot exists returns OK (0) and delivers to the engine a
substituted decision whose disconnect message is `Invalid JSON from router`;
bad-param (-2) is returned exactly for a null pointer, and not-found (-3)
exactly when the input is non-null and no pending slot exists for the id. -/
theorem c9_submit_invalid_json (p : Pending) (connId : Nat)
    (h : pendingLookup p connId = some true) :
    proxy_submit_routing_decision p connId .malformed
      = (0, pendingRemove p connId,
         some { RouteDecision.defaultVal with
                  disconnect := some "Invalid JSON from router" }) ∧
    (∀ j, (proxy_submit_routing_decision p connId j).1 = -2 ↔ j = .null) ∧
    (∀ (p2 : Pending) (id2 : Nat) (j : SubmitJson RouteDecision), j ≠ .null →
      ((proxy_submit_routing_decision p2 id2 j).1 = -3 ↔
        pendingLookup p2 id2 = none)) := by
  refine ⟨?_, ?_, ?_⟩
  · simp [proxy_submit_routing_decision, submit_send, h]
  · intro j
    cases j with
    | null => simp [proxy_submit_routing_decision]
    | valid d =>
      simp only [proxy_submit_routing_decision, submit_send, h]
      simp
    | malformed =>
      simp only [proxy_submit_routing_decision, submit_send, h]
      simp
  · intro p2 id2 j hj
    cases j with
    | null => exact absurd rfl hj
    | valid d =>
      simp only [proxy_submit_routing_decision, submit_send]
      cases hl : pendingLookup p2 id2 with
      | none => simp
      | some alive =>
        cases alive <;> simp
    | malformed =>
      simp only [proxy_submit_routing_decision, submit_send]
      cases hl : pendingLookup p2 id2 with
      | none => simp
      | some alive =>
        cases alive <;> simp

/-- Witness for C9 with one live pending slot for connection 7. -/
theorem c9_submit_invalid_json_witness :
    proxy_submit_routing_decision [(7, true)] 7 .malformed
      = (0, pendingRemove [(7, true)] 7,
         some { RouteDecision.defaultVal with
                  disconnect := some "Invalid JSON from router" }) ∧
    (∀ j, (proxy_submit_routing_decision [(7, true)] 7 j).1 = -2 ↔ j = .null) ∧
    (∀ (p2 : Pending) (id2 : Nat) (j : SubmitJson RouteDecision), j ≠ .null →
      ((proxy_submit_routing_decision p2 id2 j).1 = -3 ↔
        pendingLookup p2 id2 = none)) :=
  c9_submit_invalid_json [(7, true)] 7 rfl

/-- Outcome of awaiting a pending one-shot slot under the 10-second timeout
(`tokio::time::timeout(Duration::from_secs(10), rx)`): a decision arrives, the
channel closes without a value, or the timer fires first. -/
inductive OracleOutcome (δ : Type) where
  | reply (d : δ)
  | closed
  | timeout
deriving DecidableEq

/-- Embeds `get_route_info` (`connection.rs` lines 453-489) with the router
callback registered: a one-shot slot is inserted under the connection id, the
request is fired (`request_route_info`), and the slot is awaited with the
10-second timeout.  A submitted decision arrives with the slot already removed
by the submitter; on timeout the engine removes the slot itself and fails; if
the channel closed the engine fails without removing the slot.  The result is
(decision?, updated pending table, request fired?). -/
def get_route_info (p : Pending) (connId : Nat)
    (outcome : OracleOutcome RouteDecision) :
    Option RouteDecision × Pending × Bool :=
  let p1 := pendingInsert p connId
  match outcome with
  | .reply d => (some d, pendingRemove p1 connId, true)
  | .closed => (none, p1, true)
  | .timeout => (none, pendingRemove p1 connId, true)

/-- Embeds `get_motd_info` (`connection.rs` lines 733-766), identical in shape
to `get_route_info` but over the MOTD slot table and decision type. -/
def get_motd_info (p : Pending) (connId : Nat)
    (outcome : OracleOutcome MotdDecision) :
    Option MotdDecision × Pending × Bool :=
  let p1 := pendingInsert p connId
  match outcome with
  | .reply d => (some d, pendingRemove p1 connId, true)
  | .closed => (none, p1, true)
  | .timeout => (none, pendingRemove p1 connId, true)

/-- Client-visible frames the engine writes on the status and login paths.
`statusResponse` abstracts `send_status_response` by the decision and protocol
version it serializes; `disconnect` abstracts `write_disconnect` by its
message; `pong` abstracts `create_ping_response` by the echoed payload. -/
inductive OutEvent where
  | disconnect (msg : String)
  | statusResponse (d : MotdDecision) (protocolVersion : Nat)
  | pong (payload : Nat)
deriving DecidableEq, Repr

/-- Result of the routing segment of `handle_conn`. -/
structure RoutePhaseResult where
  out : List OutEvent
  pending : Pending
  requested : Bool
  cleanedUp : Bool
  proceed : Option RouteDecision
deriving DecidableEq

/-- Embeds the routing segment of `handle_conn` (`connection.rs` lines
200-216): await `get_route_info`; on failure write the disconnect
`Internal routing error.` and clean up; on a decision carrying `disconnect`
write that message and clean up; otherwise proceed toward the backend dial
with the decision. -/
def route_phase (p : Pending) (connId : Nat)
    (outcome : OracleOutcome RouteDecision) : RoutePhaseResult :=
  match get_route_info p connId outcome with
  | (none, p2, req) =>
    { out := [.disconnect "Internal routing error."], pending := p2,
      requested := req, cleanedUp := true, proceed := none }
  | (some d, p2, req) =>
    match d.disconnect with
    | some msg =>
      { out := [.disconnect msg], pending := p2, requested := req,
        cleanedUp := true, proceed := none }
    | none =>
      { out := [], pending := p2, requested := req, cleanedUp := false,
        proceed := some d }

/-- Embeds the fallback MOTD that `handle_status_request` builds when
`get_motd_info` fails (`connection.rs` lines 620-639): name `Geofront`, the
client's protocol version, 20 max players, 0 online, empty sample, and the
description `json!({"text": "Geofront Proxy - Connection Error"})` (held as
its serialization).  The source literal writes `online: 0` against the
`types.rs` variant whose `online` is optional, embedded as `some 0`. -/
def defaultErrorMotd (protocolVersion : Nat) : MotdDecision :=
  { version := some { name := "Geofront", protocol := protocolVersion },
    players := some { max := 20, online := some 0, sample := [] },
    description := some "\x7b\"text\":\"Geofront Proxy - Connection Error\"\x7d",
    favicon := none, disconnect := none, cache := none }

/-- Embeds `read_u64` (tokio `AsyncReadExt::read_u64`): eight big-endian
bytes. -/
def read_u64 (s : ByteStream) : Except RsErr (Nat × ByteStream) :=
  match s with
  | b1 :: b2 :: b3 :: b4 :: b5 :: b6 :: b7 :: b8 :: rest =>
    .ok (((((((b1 * 256 + b2) * 256 + b3) * 256 + b4) * 256 + b5) * 256 + b6)
      * 256 + b7) * 256 + b8, rest)
  | _ => .error .eof

/-- Embeds the optional trailing ping handling of `handle_status_request`
(`connection.rs` lines 654-665): after the status response, if a further
packet parses and its id is 1, its eight-byte payload is echoed as a pong;
on any read failure or other id nothing more is written. -/
def status_ping_tail (r2 : ByteStream) : List OutEvent :=
  match read_varint r2 with
  | .error _ => []
  | .ok (_pingLen, r3) =>
    match read_varint r3 with
    | .error _ => []
    | .ok (pid2, r4) =>
      if pid2 = 1 then
        match read_u64 r4 with
        | .ok (payload, _r5) => [.pong payload]
        | .error _ => []
      else []

/-- Result of `handle_status_request`: the frames written to the client, the
MOTD slot table afterwards, and whether an oracle MOTD rendezvous was
performed. -/
structure StatusResult where
  out : List OutEvent
  pending : Pending
  requested : Bool
deriving DecidableEq

/-- Embeds `handle_status_request` (`connection.rs` lines 574-666): read the
status-request packet (length varint, then packet id which must be 0), then
unconditionally perform the MOTD oracle rendezvous (`get_motd_info`) — the
function never consults `ROUTER_MOTD_CACHE` — falling back to
`defaultErrorMotd` when the rendezvous fails; a decision carrying `disconnect`
is written as a disconnect frame, otherwise the status response is sent and an
optional trailing ping packet (id 1) is echoed as a pong. -/
def handle_status_request (p : Pending) (connId : Nat) (hs : HandshakeData)
    (peerIp : String) (input : ByteStream)
    (outcome : OracleOutcome MotdDecision) : StatusResult :=
  match read_varint input with
  | .error _ => { out := [], pending := p, requested := false }
  | .ok (_packetLen, r1) =>
    match read_varint r1 with
    | .error _ => { out := [], pending := p, requested := false }
    | .ok (packetId, r2) =>
      if packetId ≠ 0 then { out := [], pending := p, requested := false }
      else
        match get_motd_info p connId outcome with
        | (res, p2, req) =>
          let motdDecision := match res with
            | some d => d
            | none => defaultErrorMotd hs.protocol_version
          match motdDecision.disconnect with
          | some msg => { out := [.disconnect msg], pending := p2, requested := req }
          | none =>
            { out := OutEvent.statusResponse motdDecision hs.protocol_version
                :: status_ping_tail r2,
              pending := p2, requested := req }

/-- Embeds the status branch of `handle_conn` (`connection.rs` lines
169-173): `handle_status_request` runs and then `cleanup_conn` is called on
the registry. -/
def handle_conn_status (reg : Registry) (p : Pending) (connId : Nat)
    (hs : HandshakeData) (peerIp : String) (input : ByteStream)
    (outcome : OracleOutcome MotdDecision) : StatusResult × Registry :=
  (handle_status_request p connId hs peerIp input outcome, cleanup_conn reg connId)

/-- After removing a slot, lookups for that id fail. -/
theorem pendingLookup_remove (p : Pending) (id : Nat) :
    pendingLookup (pendingRemove p id) id = none := by
  induction p with
  | nil => rfl
  | cons q rest ih =>
    simp only [pendingRemove, pendingLookup, List.filter_cons] at ih ⊢
    by_cases h : q.1 = id
    · simp [h, ih]
    · have hne : (q.1 != id) = true := by simp [h]
      have hbe : (q.1 == id) = false := by simp [h]
      simp [hne, hbe, ih]

/-- C1 evaluated at the failing input: with a valid (unexpired) MOTD decision
cached for peer `1.2.3.4` and host `x.example` (stored with granularity
IP+Host and TTL 60000 ms, still valid at 30000 ms), a status request for that
same peer and host still performs the oracle MOTD rendezvous — the cached
response is not served and the cache's `get` is never invoked on the status
path — and the response served comes from the oracle's decision, not from the
cache. -/
theorem c1_status_cache_bypassed :
    (cache_get
        (cache_set ([] : Cache JsonValue) "1.2.3.4" (some "x.example")
          "\x7b\"description\":\x7b\"text\":\"cached\"\x7d\x7d"
          ⟨.ipHost, 60000, none, none⟩ 0)
        "1.2.3.4" (some "x.example") .ipHost 30000).1
      = some ⟨"\x7b\"description\":\x7b\"text\":\"cached\"\x7d\x7d",
              false, none, 60000⟩ ∧
    (handle_status_request [] 7 ⟨765, asciiBytes "x.example", 25565, 1⟩
        "1.2.3.4" [1, 0]
        (.reply ⟨none, none, some "\x7b\"text\":\"oracle\"\x7d", none, none,
          none⟩)).requested = true ∧
    (handle_status_request [] 7 ⟨765, asciiBytes "x.example", 25565, 1⟩
        "1.2.3.4" [1, 0]
        (.reply ⟨none, none, some "\x7b\"text\":\"oracle\"\x7d", none, none,
          none⟩)).out
      = [.statusResponse ⟨none, none, some "\x7b\"text\":\"oracle\"\x7d",
          none, none, none⟩ 765] := by
  refine ⟨?_, rfl, rfl⟩
  rfl

/-- Counterexample for C3: on an MOTD oracle timeout for a valid status
request, the engine does not send the disconnect `Internal routing error.`
that the claim prescribes — it serves the default status response instead. -/
theorem c3_motd_timeout_counterexample :
    (handle_status_request [] 7 ⟨765, asciiBytes "x.example", 25565, 1⟩
        "1.2.3.4" [1, 0] .timeout).out
      = [.statusResponse (defaultErrorMotd 765) 765] ∧
    (handle_status_request [] 7 ⟨765, asciiBytes "x.example", 25565, 1⟩
        "1.2.3.4" [1, 0] .timeout).out
      ≠ [.disconnect "Internal routing error."] := by
  constructor
  · rfl
  · decide

/-- The ping tail after a status response never contains a disconnect frame. -/
theorem status_ping_tail_no_disconnect (r2 : ByteStream) (m : String) :
    OutEvent.disconnect m ∉ status_ping_tail r2 := by
  unfold status_ping_tail
  cases hr2 : read_varint r2 with
  | error e => simp
  | ok v =>
    obtain ⟨pl, r3⟩ := v
    cases hr3 : read_varint r3 with
    | error e => simp [hr3]
    | ok w =>
      obtain ⟨pid2, r4⟩ := w
      by_cases hp : pid2 = 1
      · cases hu : read_u64 r4 with
        | error e => simp [hr3, hp, hu]
        | ok z =>
          obtain ⟨pay, r5⟩ := z
          simp [hr3, hp, hu]
      · simp [hr3, hp]

/-- C3 as amended: when the 10-second oracle await times out, the engine
removes the pending slot for the connection in both rendezvous kinds; on the
route path it then sends the disconnect `Internal routing error.` and cleans
the connection up, while on the MOTD path it serves the default status
response (description `Geofront Proxy - Connection Error`) with no disconnect
frame, and the connection is cleaned up after the status branch returns. -/
theorem c3_oracle_timeout_amended (p : Pending) (connId : Nat) (reg : Registry)
    (hs : HandshakeData) (peerIp : String) (input : ByteStream)
    (len0 : Nat) (r1 r2 : ByteStream)
    (h1 : read_varint input = .ok (len0, r1))
    (h2 : read_varint r1 = .ok (0, r2)) :
    (pendingLookup (route_phase p connId .timeout).pending connId = none ∧
     (route_phase p connId .timeout).out = [.disconnect "Internal routing error."] ∧
     (route_phase p connId .timeout).cleanedUp = true) ∧
    (pendingLookup (handle_status_request p connId hs peerIp input .timeout).pending
        connId = none ∧
     (handle_status_request p connId hs peerIp input .timeout).out.head?
        = some (.statusResponse (defaultErrorMotd hs.protocol_version)
            hs.protocol_version) ∧
     (∀ m, OutEvent.disconnect m ∉
        (handle_status_request p connId hs peerIp input .timeout).out) ∧
     (handle_conn_status reg p connId hs peerIp input .timeout).2
        = cleanup_conn reg connId) := by
  have hred : handle_status_request p connId hs peerIp input .timeout
      = { out := OutEvent.statusResponse (defaultErrorMotd hs.protocol_version)
            hs.protocol_version :: status_ping_tail r2,
          pending := pendingRemove (pendingInsert p connId) connId,
          requested := true } := by
    simp only [handle_status_request, h1, h2, get_motd_info]
    simp [defaultErrorMotd]
  refine ⟨⟨?_, rfl, rfl⟩, ?_, ?_, ?_, rfl⟩
  · exact pendingLookup_remove _ _
  · rw [hred]
    exact pendingLookup_remove _ _
  · rw [hred]
    rfl
  · intro m
    rw [hred]
    simp only [List.mem_cons]
    rintro (h | h)
    · exact absurd h (by simp)
    · exact absurd h (status_ping_tail_no_disconnect r2 m)

/-- Witness for the amended C3 at a concrete empty slot table, registry and
status-request stream. -/
theorem c3_oracle_timeout_amended_witness :
    (pendingLookup (route_phase [] 7 .timeout).pending 7 = none ∧
     (route_phase [] 7 .timeout).out = [.disconnect "Internal routing error."] ∧
     (route_phase [] 7 .timeout).cleanedUp = true) ∧
    (pendingLookup (handle_status_request [] 7 ⟨765, [97], 25565, 1⟩
        "1.2.3.4" [1, 0] .timeout).pending 7 = none ∧
     (handle_status_request [] 7 ⟨765, [97], 25565, 1⟩
        "1.2.3.4" [1, 0] .timeout).out.head?
        = some (.statusResponse (defaultErrorMotd 765) 765) ∧
     (∀ m, OutEvent.disconnect m ∉
        (handle_status_request [] 7 ⟨765, [97], 25565, 1⟩
          "1.2.3.4" [1, 0] .timeout).out) ∧
     (handle_conn_status ⟨[], [7], [7], [7], 1⟩ [] 7 ⟨765, [97], 25565, 1⟩
        "1.2.3.4" [1, 0] .timeout).2
        = cleanup_conn ⟨[], [7], [7], [7], 1⟩ 7) :=
  c3_oracle_timeout_amended [] 7 ⟨[], [7], [7], [7], 1⟩ ⟨765, [97], 25565, 1⟩
    "1.2.3.4" [1, 0] 1 [0] [] rfl rfl

/-- State of the forwarding loop `copy_bidirectional_with_metrics`
(`connection.rs` lines 351-450): the two running copy totals (`a_to_b_copied`
and `b_to_a_copied`, both `u64`), the per-connection counters
(`conn_metrics.bytes_sent` / `bytes_recv`) and the global counters
(`TOTAL_BYTES_SENT` / `TOTAL_BYTES_RECV`), all wrapping modulo `2 ^ 64`; the
two closed flags; whether each side's write direction was shut down; the
chunks written to each side in order; and the amounts awaited from the send
and receive token buckets in order. -/
structure FwdState where
  aToB : Nat
  bToA : Nat
  bytesSent : Nat
  bytesRecv : Nat
  totalSent : Nat
  totalRecv : Nat
  aClosed : Bool
  bClosed : Bool
  aShutdown : Bool
  bShutdown : Bool
  bWrites : List (List Nat)
  aWrites : List (List Nat)
  sendWaits : List Nat
  recvWaits : List Nat
deriving DecidableEq, Repr

/-- Specification-side chunking: split a buffer into pieces of at most 1024
bytes, front to back. -/
def chunksOf (data : List Nat) : List (List Nat) :=
  if h : data = [] then []
  else data.take 1024 :: chunksOf (data.drop 1024)
termination_by data.length
decreasing_by
  have hpos : 0 < data.length := List.length_pos.mpr h
  simp only [List.length_drop]
  omega

/-- Embeds the inner `while remaining > 0` of the `a.read` arm
(`connection.rs` lines 403-416): take `chunk_size = min(remaining, 1024)`
bytes, await that many tokens from the send limiter (`until_n_ready`), write
the chunk to `b`, and add the chunk size to `a_to_b_copied`, the connection's
`bytes_sent` and `TOTAL_BYTES_SENT`. -/
def forwardAtoB (data : List Nat) (s : FwdState) : FwdState :=
  if h : data = [] then s
  else
    let chunk := data.take 1024
    forwardAtoB (data.drop 1024)
      { s with sendWaits := s.sendWaits ++ [chunk.length],
               bWrites := s.bWrites ++ [chunk],
               aToB := (s.aToB + chunk.length) % 2 ^ 64,
               bytesSent := (s.bytesSent + chunk.length) % 2 ^ 64,
               totalSent := (s.totalSent + chunk.length) % 2 ^ 64 }
termination_by data.length
decreasing_by
  have hpos : 0 < data.length := List.length_pos.mpr h
  simp only [List.length_drop]
  omega

/-- Embeds the inner `while remaining > 0` of the `b.read` arm
(`connection.rs` lines 427-440), symmetric to `forwardAtoB`. -/
def forwardBtoA (data : List Nat) (s : FwdState) : FwdState :=
  if h : data = [] then s
  else
    let chunk := data.take 1024
    forwardBtoA (data.drop 1024)
      { s with recvWaits := s.recvWaits ++ [chunk.length],
               aWrites := s.aWrites ++ [chunk],
               bToA := (s.bToA + chunk.length) % 2 ^ 64,
               bytesRecv := (s.bytesRecv + chunk.length) % 2 ^ 64,
               totalRecv := (s.totalRecv + chunk.length) % 2 ^ 64 }
termination_by data.length
decreasing_by
  have hpos : 0 < data.length := List.length_pos.mpr h
  simp only [List.length_drop]
  omega

/-- A successful read delivered by the biased `tokio::select!`: which side it
came from and the bytes read (the empty list is a zero-byte read, i.e. that
side reached end of stream). -/
inductive FwdEvent where
  | aRead (data : List Nat)
  | bRead (data : List Nat)
deriving DecidableEq, Repr

/-- Embeds one iteration of the `loop { tokio::select! { ... } }`
(`connection.rs` lines 391-447): a read on an already-closed side is
impossible (that arm is guarded by `if !closed`); a zero-byte read marks the
side closed and shuts down the other side's write direction if it is still
open; otherwise the bytes are forwarded in chunks. -/
def stepEvent (e : FwdEvent) (s : FwdState) : FwdState :=
  match e with
  | .aRead data =>
    if s.aClosed then s
    else if data = [] then
      { s with aClosed := true,
               bShutdown := if s.bClosed then s.bShutdown else true }
    else forwardAtoB data s
  | .bRead data =>
    if s.bClosed then s
    else if data = [] then
      { s with bClosed := true,
               aShutdown := if s.aClosed then s.aShutdown else true }
    else forwardBtoA data s

/-- The forwarding loop over a schedule of successful reads. -/
def copyLoop (events : List FwdEvent) (s : FwdState) : FwdState :=
  match events with
  | [] => s
  | e :: rest => copyLoop rest (stepEvent e s)

/-- Loop state at entry: all counters zero, both sides open, no traffic. -/
def initFwdState : FwdState :=
  ⟨0, 0, 0, 0, 0, 0, false, false, false, false, [], [], [], []⟩

/-- Embeds the observable result of `copy_bidirectional_with_metrics`
(`connection.rs` lines 351-450) under a schedule of successful reads: the
returned pair `(a_to_b_copied, b_to_a_copied)` and the final state. -/
def copy_bidirectional_with_metrics (events : List FwdEvent) :
    (Nat × Nat) × FwdState :=
  let s := copyLoop events initFwdState
  ((s.aToB, s.bToA), s)

/-- The chunks of a buffer concatenate back to the buffer. -/
theorem chunksOf_flatten (data : List Nat) : (chunksOf data).flatten = data := by
  induction data using chunksOf.induct with
  | case1 =>
    rw [chunksOf]
    simp
  | case2 data h ih =>
    rw [chunksOf]
    simp only [dif_neg h, List.flatten_cons]
    rw [ih]
    exact List.take_append_drop 1024 data

/-- Every chunk holds at most 1024 bytes. -/
theorem chunksOf_length_le (data : List Nat) :
    ∀ c ∈ chunksOf data, c.length ≤ 1024 := by
  induction data using chunksOf.induct with
  | case1 =>
    rw [chunksOf]
    simp
  | case2 data h ih =>
    rw [chunksOf]
    simp only [dif_neg h, List.mem_cons]
    rintro c (rfl | hc)
    · simp only [List.length_take]
      omega
    · exact ih c hc

/-- The chunk sizes of a buffer sum to its length. -/
theorem chunksOf_sum (data : List Nat) :
    ((chunksOf data).map List.length).sum = data.length := by
  have h := congrArg List.length (chunksOf_flatten data)
  rw [List.length_flatten] at h
  exact h

/-- Closed form of the `a.read` forwarding arm: on a non-empty read it appends
exactly the chunks of the buffer to the writes toward `b`, appends the chunk
sizes to the send-limiter waits, and adds the byte count to the three a-to-b
counters; nothing else changes. -/
theorem forwardAtoB_spec (data : List Nat) (s : FwdState) :
    data ≠ [] → forwardAtoB data s =
      { s with bWrites := s.bWrites ++ chunksOf data,
               sendWaits := s.sendWaits ++ (chunksOf data).map List.length,
               aToB := (s.aToB + data.length) % 2 ^ 64,
               bytesSent := (s.bytesSent + data.length) % 2 ^ 64,
               totalSent := (s.totalSent + data.length) % 2 ^ 64 } := by
  induction data, s using forwardAtoB.induct with
  | case1 s =>
    intro hd
    exact absurd rfl hd
  | case2 data s h chunk ih =>
    intro _
    have hchunk : chunk = List.take 1024 data := rfl
    rw [forwardAtoB]
    simp only [dif_neg h]
    have hcd : (List.take 1024 data).length + (List.drop 1024 data).length
        = data.length := by
      simp only [List.length_take, List.length_drop]
      omega
    by_cases hdrop : data.drop 1024 = []
    · rw [forwardAtoB]
      simp only [dif_pos hdrop]
      have hlen : data.length ≤ 1024 := by
        have h0 := congrArg List.length hdrop
        simp only [List.length_drop, List.length_nil] at h0
        omega
      have htake : data.take 1024 = data := List.take_of_length_le hlen
      have hch : chunksOf data = [data] := by
        conv_lhs => rw [chunksOf]
        simp only [dif_neg h, hdrop]
        rw [htake, chunksOf]
        simp
      rw [hch]
      simp only [FwdState.mk.injEq]
      and_intros <;> first | trivial | simp [htake]
    · rw [ih hdrop]
      have hch : chunksOf data = data.take 1024 :: chunksOf (data.drop 1024) := by
        conv_lhs => rw [chunksOf]
        simp only [dif_neg h]
      rw [hch, hchunk]
      simp only [FwdState.mk.injEq, List.map_cons]
      and_intros <;>
        first
          | trivial
          | (rw [Nat.mod_add_mod]
             exact congrArg (fun t => t % 2 ^ 64) (by omega))
          | simp [List.append_assoc]

/-- Closed form of the `b.read` forwarding arm, symmetric to
`forwardAtoB_spec`. -/
theorem forwardBtoA_spec (data : List Nat) (s : FwdState) :
    data ≠ [] → forwardBtoA data s =
      { s with aWrites := s.aWrites ++ chunksOf data,
               recvWaits := s.recvWaits ++ (chunksOf data).map List.length,
               bToA := (s.bToA + data.length) % 2 ^ 64,
               bytesRecv := (s.bytesRecv + data.length) % 2 ^ 64,
               totalRecv := (s.totalRecv + data.length) % 2 ^ 64 } := by
  induction data, s using forwardBtoA.induct with
  | case1 s =>
    intro hd
    exact absurd rfl hd
  | case2 data s h chunk ih =>
    intro _
    have hchunk : chunk = List.take 1024 data := rfl
    rw [forwardBtoA]
    simp only [dif_neg h]
    have hcd : (List.take 1024 data).length + (List.drop 1024 data).length
        = data.length := by
      simp only [List.length_take, List.length_drop]
      omega
    by_cases hdrop : data.drop 1024 = []
    · rw [forwardBtoA]
      simp only [dif_pos hdrop]
      have hlen : data.length ≤ 1024 := by
        have h0 := congrArg List.length hdrop
        simp only [List.length_drop, List.length_nil] at h0
        omega
      have htake : data.take 1024 = data := List.take_of_length_le hlen
      have hch : chunksOf data = [data] := by
        conv_lhs => rw [chunksOf]
        simp only [dif_neg h, hdrop]
        rw [htake, chunksOf]
        simp
      rw [hch]
      simp only [FwdState.mk.injEq]
      and_intros <;> first | trivial | simp [htake]
    · rw [ih hdrop]
      have hch : chunksOf data = data.take 1024 :: chunksOf (data.drop 1024) := by
        conv_lhs => rw [chunksOf]
        simp only [dif_neg h]
      rw [hch, hchunk]
      simp only [FwdState.mk.injEq, List.map_cons]
      and_intros <;>
        first
          | trivial
          | (rw [Nat.mod_add_mod]
             exact congrArg (fun t => t % 2 ^ 64) (by omega))
          | simp [List.append_assoc]

/-- Totals invariant of the forwarding loop: each running copy total equals
(modulo `2 ^ 64`) the sum of the chunk sizes written so far in its
direction. -/
def fwdTotalsInv (s : FwdState) : Prop :=
  s.aToB = (s.bWrites.map List.length).sum % 2 ^ 64 ∧
  s.bToA = (s.aWrites.map List.length).sum % 2 ^ 64

/-- One loop iteration preserves the totals invariant. -/
theorem stepEvent_totals (e : FwdEvent) (s : FwdState) (hs : fwdTotalsInv s) :
    fwdTotalsInv (stepEvent e s) := by
  obtain ⟨h1, h2⟩ := hs
  cases e with
  | aRead data =>
    simp only [stepEvent]
    by_cases hc : s.aClosed
    · simp only [hc, if_true]
      exact ⟨h1, h2⟩
    · simp only [hc, if_false]
      by_cases hd : data = []
      · simp [hd]
        exact ⟨h1, h2⟩
      · simp only [hd, if_false]
        rw [forwardAtoB_spec data s hd]
        refine ⟨?_, h2⟩
        show (s.aToB + data.length) % 2 ^ 64
            = ((s.bWrites ++ chunksOf data).map List.length).sum % 2 ^ 64
        rw [List.map_append, List.sum_append, chunksOf_sum, h1, Nat.mod_add_mod]
  | bRead data =>
    simp only [stepEvent]
    by_cases hc : s.bClosed
    · simp only [hc, if_true]
      exact ⟨h1, h2⟩
    · simp only [hc, if_false]
      by_cases hd : data = []
      · simp [hd]
        exact ⟨h1, h2⟩
      · simp only [hd, if_false]
        rw [forwardBtoA_spec data s hd]
        refine ⟨h1, ?_⟩
        show (s.bToA + data.length) % 2 ^ 64
            = ((s.aWrites ++ chunksOf data).map List.length).sum % 2 ^ 64
        rw [List.map_append, List.sum_append, chunksOf_sum, h2, Nat.mod_add_mod]

/-- The loop preserves the totals invariant over any schedule. -/
theorem copyLoop_totals (events : List FwdEvent) (s : FwdState)
    (hs : fwdTotalsInv s) : fwdTotalsInv (copyLoop events s) := by
  induction events generalizing s with
  | nil => exact hs
  | cons e rest ih => exact ih _ (stepEvent_totals e s hs)

/-- C5: in the forwarding loop, every successful read of `n > 0` bytes is
forwarded as exactly those bytes, in order, split into chunks of at most 1024
bytes; one token wait of exactly the chunk size precedes each chunk write on
that direction's bucket; the per-connection and global byte counters for the
direction each advance by `n` (as `u64`s, modulo `2 ^ 64`); and the returned
`(a_to_b, b_to_a)` totals equal the sums of the chunk sizes written in each
direction (modulo `2 ^ 64`). -/
theorem c5_forwarding_loop :
    (∀ (s : FwdState) (d : List Nat), s.aClosed = false → d ≠ [] →
      (stepEvent (.aRead d) s).bWrites = s.bWrites ++ chunksOf d ∧
      (chunksOf d).flatten = d ∧
      (∀ c ∈ chunksOf d, c.length ≤ 1024) ∧
      (stepEvent (.aRead d) s).sendWaits
        = s.sendWaits ++ (chunksOf d).map List.length ∧
      (stepEvent (.aRead d) s).bytesSent = (s.bytesSent + d.length) % 2 ^ 64 ∧
      (stepEvent (.aRead d) s).totalSent = (s.totalSent + d.length) % 2 ^ 64 ∧
      (stepEvent (.aRead d) s).aToB = (s.aToB + d.length) % 2 ^ 64) ∧
    (∀ (s : FwdState) (d : List Nat), s.bClosed = false → d ≠ [] →
      (stepEvent (.bRead d) s).aWrites = s.aWrites ++ chunksOf d ∧
      (stepEvent (.bRead d) s).recvWaits
        = s.recvWaits ++ (chunksOf d).map List.length ∧
      (stepEvent (.bRead d) s).bytesRecv = (s.bytesRecv + d.length) % 2 ^ 64 ∧
      (stepEvent (.bRead d) s).totalRecv = (s.totalRecv + d.length) % 2 ^ 64 ∧
      (stepEvent (.bRead d) s).bToA = (s.bToA + d.length) % 2 ^ 64) ∧
    (∀ events : List FwdEvent,
      (copy_bidirectional_with_metrics events).1
        = ((copyLoop events initFwdState).aToB,
           (copyLoop events initFwdState).bToA) ∧
      (copyLoop events initFwdState).aToB
        = ((copyLoop events initFwdState).bWrites.map List.length).sum % 2 ^ 64 ∧
      (copyLoop events initFwdState).bToA
        = ((copyLoop events initFwdState).aWrites.map List.length).sum % 2 ^ 64) := by
  refine ⟨?_, ?_, ?_⟩
  · intro s d hcl hd
    have hstep : stepEvent (.aRead d) s = forwardAtoB d s := by
      simp [stepEvent, hcl, hd]
    rw [hstep, forwardAtoB_spec d s hd]
    exact ⟨rfl, chunksOf_flatten d, chunksOf_length_le d, rfl, rfl, rfl, rfl⟩
  · intro s d hcl hd
    have hstep : stepEvent (.bRead d) s = forwardBtoA d s := by
      simp [stepEvent, hcl, hd]
    rw [hstep, forwardBtoA_spec d s hd]
    exact ⟨rfl, rfl, rfl, rfl, rfl⟩
  · intro events
    have hinv : fwdTotalsInv (copyLoop events initFwdState) :=
      copyLoop_totals events initFwdState ⟨rfl, rfl⟩
    exact ⟨rfl, hinv.1, hinv.2⟩

/-- Witness for C5 at a concrete state, reads and schedule. -/
theorem c5_forwarding_loop_witness :
    (stepEvent (.aRead [5, 6]) initFwdState).bWrites
      = initFwdState.bWrites ++ chunksOf [5, 6] ∧
    (stepEvent (.bRead [9]) initFwdState).bToA
      = (initFwdState.bToA + ([9] : List Nat).length) % 2 ^ 64 ∧
    (copy_bidirectional_with_metrics [.aRead [5, 6], .bRead [9]]).1
      = ((copyLoop [.aRead [5, 6], .bRead [9]] initFwdState).aToB,
         (copyLoop [.aRead [5, 6], .bRead [9]] initFwdState).bToA) :=
  ⟨(c5_forwarding_loop.1 initFwdState [5, 6] rfl (by decide)).1,
   (c5_forwarding_loop.2.1 initFwdState [9] rfl (by decide)).2.2.2.2,
   (c5_forwarding_loop.2.2 [.aRead [5, 6], .bRead [9]]).1⟩
